import Mathlib

/-!
# minimalwave: download-while-playing pipeline

A shallow embedding of `minimalwave.go`.  The external world (file system,
network, player processes) is an explicit state together with a record of
answers the environment gives; every function of the program becomes a Lean
function over that state.
-/

namespace Minimalwave

/-! ## float64 arithmetic of the progress bar

`createColorBlockProgress` computes `int(float64(current) / float64(total) * 64)`.
The float64 values that occur are non-negative rationals; they are represented
exactly, as a 53-bit mantissa and an exponent, and every operation rounds to
nearest, ties to even, as IEEE 754 binary64 does.  Magnitudes stay between
`2^-64` and `2^70`, far from the overflow and subnormal ranges. -/

/-- Nearest integer to `n / d`, a tie going to the even neighbour. -/
def roundHalfEven (n d : Nat) : Nat :=
  if 2 * (n % d) < d then n / d
  else if d < 2 * (n % d) then n / d + 1
  else if (n / d) % 2 = 0 then n / d
  else n / d + 1

/-- Least `s` with `n / 2^s < bound`, searched with at most `fuel` halvings. -/
def excessBits : Nat → Nat → Nat → Nat
  | 0, _, _ => 0
  | fuel + 1, n, bound => if n < bound then 0 else excessBits fuel (n / 2) bound + 1

/-- The float64 nearest to `n / d` (for `0 < d`, and `n = 0` or `d < 2^76 * n`),
as a pair `(m, s)` standing for `m * 2^s / 2^128` with `m ≤ 2^53`. -/
def f64Quot (n d : Nat) : Nat × Nat :=
  let s := excessBits (n * 2 ^ 128) (n * 2 ^ 128) (d * 2 ^ 53)
  (roundHalfEven (n * 2 ^ 128) (d * 2 ^ s), s)

/-- The conversion `float64(x)` of a non-negative integer; the result is again
an integer. -/
def toFloat64 (x : Nat) : Nat :=
  (f64Quot x 1).1 * 2 ^ (f64Quot x 1).2 / 2 ^ 128

/-- Value of `int(float64(current) / float64(total) * 64)` for non-negative
`current` and positive `total`, before the range check of the conversion:
the quotient is rounded once, the product with 64 is exact, and the conversion
to an integer truncates. -/
def blocksNat (current total : Nat) : Nat :=
  (f64Quot (toFloat64 current) (toFloat64 total)).1 *
    2 ^ (f64Quot (toFloat64 current) (toFloat64 total)).2 / 2 ^ 122

/-- The statement `blocks := int(progress * blockCount)` for `int64` arguments
with `total > 0`.  Rounding and truncation are symmetric in the sign.  A value
outside the `int64` range converts to the smallest `int64`, as on amd64. -/
def blocksOf (current total : Int) : Int :=
  let v : Int := blocksNat current.natAbs total.natAbs
  let r : Int := if current < 0 then -v else v
  if -(2 ^ 63) ≤ r ∧ r < 2 ^ 63 then r else -(2 ^ 63)

/-- The closure returned by `createColorBlockProgress`: `lastBlocks` is the
captured variable; the result is its new value and the indices `i` of the loop
iterations, each of which prints one block (in a colour drawn at random). -/
def progressCallback (lastBlocks : Int) (current total : Int) : Int × List Int :=
  if total ≤ 0 then (lastBlocks, [])
  else
    let blocks := blocksOf current total
    if blocks > lastBlocks then
      (blocks, (List.range (blocks - lastBlocks).toNat).map (fun (j : Nat) => lastBlocks + (j : Int)))
    else (lastBlocks, [])

/-- State of a progress bar: the captured `lastBlocks` and all blocks printed
so far, oldest first. -/
structure Bar where
  lastBlocks : Int
  drawn : List Int
  deriving DecidableEq

/-- The bar `createColorBlockProgress` starts with: `lastBlocks = 0`.  (The
parameter `total` of the Go function is shadowed by that of the closure.) -/
def createColorBlockProgress : Bar := ⟨0, []⟩

/-- One invocation of the callback on a bar. -/
def Bar.invoke (b : Bar) (call : Int × Int) : Bar :=
  ⟨(progressCallback b.lastBlocks call.1 call.2).1,
   b.drawn ++ (progressCallback b.lastBlocks call.1 call.2).2⟩

/-- A sequence of invocations `(current, total)`, in order. -/
def Bar.run (b : Bar) (calls : List (Int × Int)) : Bar :=
  calls.foldl Bar.invoke b

/-! ## The outside world

Files, the network and the player processes are outside the program.  The
state of the world is the content of every file together with the sequence of
actions the program has performed; what the environment answers to each
request of the program is collected in `Env`. -/

/-- File contents. -/
abbrev Bytes := List Nat

/-- The errors the program returns or dies with. -/
inductive Err
  | userCacheDir
  | mkdirAll
  | readDir
  | unexpectedId
  | newRequest
  | download
  | status (code : Nat)
  | createTemp
  | noPlayer
  | startPlayer
  | start
  | saveToCache
  | closeTemp
  | playerExit (code : Int)
  | playerWait
  deriving DecidableEq

/-- What `cmd.Wait` reports: the process exited with a status (status 0 gives a
nil error, any other an `*exec.ExitError`), or waiting itself failed. -/
inductive WaitResult
  | exited (code : Int)
  | failed
  deriving DecidableEq

/-- Actions of the program that reach the outside world. -/
inductive Event
  | stat (path : String)
  | httpGet (url agent : String)
  | createTemp
  | start (player : String) (args : List String)
  | draw (block : Int)
  | kill
  | wait
  | create (path : String)
  | remove (path : String)
  | warn
  deriving DecidableEq

/-- An entry of a directory listing. -/
structure DirEntry where
  name : String
  isDir : Bool
  deriving DecidableEq

/-- An HTTP response: status, `ContentLength` (-1 when unknown), the data the
successive reads of the body return, and whether the read after the last of
them fails instead of reporting the end of the body. -/
structure Response where
  statusCode : Nat
  contentLength : Int
  chunks : List Bytes
  readError : Bool

/-- Answers of the environment during one run. -/
structure Env where
  /-- Result of `os.UserCacheDir`. -/
  userCacheDir : Option String
  /-- Whether `os.MkdirAll` succeeds. -/
  mkdirAllOk : Bool
  /-- Result of `os.ReadDir`; `none` is an error. -/
  readDir : String → Option (List DirEntry)
  /-- Whether `os.Remove` succeeds on this path. -/
  removeOk : String → Bool
  /-- Value of `time.Now().UnixNano()`. -/
  now : Nat
  /-- Hex MD5 digest of a string. -/
  md5hex : String → String
  /-- Whether `http.NewRequest` succeeds. -/
  newRequestOk : Bool
  /-- Result of `http.DefaultClient.Do`; `none` is a transport error. -/
  response : Option Response
  /-- Result of `os.CreateTemp`: the name of the new file; `none` is an error. -/
  createTemp : Option String
  /-- Whether `exec.LookPath` finds the executable. -/
  lookPath : String → Bool
  /-- Whether `cmd.Start` succeeds for this player and these arguments. -/
  startOk : String → List String → Bool
  /-- Result of `cmd.Wait` for the player run with these arguments, when the file
  it plays holds this content (`none`: no such file) at the time of the wait. -/
  waitResult : String → List String → Option Bytes → WaitResult
  /-- Number of bytes the temporary file accepts before a write fails. -/
  writeLimit : Option Nat
  /-- Whether `tempFile.Close` succeeds. -/
  closeOk : Bool
  /-- Whether `os.Open` in `copyFile` succeeds. -/
  copyOpenOk : Bool
  /-- Whether `os.Create` in `copyFile` succeeds. -/
  copyCreateOk : Bool
  /-- Number of bytes `io.Copy` in `copyFile` writes before it fails; `none`: it succeeds. -/
  copyLimit : Option Nat

/-- State of the world. -/
structure World where
  fs : String → Option Bytes
  trace : List Event

/-- Record an action. -/
def World.emit (w : World) (e : Event) : World :=
  { w with trace := w.trace ++ [e] }

/-- Record several actions. -/
def World.emitAll (w : World) (es : List Event) : World :=
  { w with trace := w.trace ++ es }

/-- Set the content of a file. -/
def World.put (w : World) (path : String) (content : Bytes) : World :=
  { w with fs := fun p => if p = path then some content else w.fs p }

/-- Unlink a file. -/
def World.del (w : World) (path : String) : World :=
  { w with fs := fun p => if p = path then none else w.fs p }

/-- Players started so far, with their arguments. -/
def starts : List Event → List (String × List String)
  | [] => []
  | Event.start p a :: t => (p, a) :: starts t
  | _ :: t => starts t

/-- Paths handed to `os.Remove` so far. -/
def removals : List Event → List String
  | [] => []
  | Event.remove p :: t => p :: removals t
  | _ :: t => removals t

/-! ## The program

Every function of `minimalwave.go` follows, in the order of the calls it makes.
Output to the terminal other than the blocks of the progress bar (the
connecting animation and the line-clearing sequences), the pause before the
player is started and the closing of the response body do not act on files,
network or processes and are left out. -/

def userAgent : String := "minimalwave (https://github.com/miku/minimalwave)"

def identifiers : List String := [
  "evr_1280-10731-20091213", "evr_1280-10733-20091227", "evr_1280-10735-20100110", "evr_1280-10737-20100124",
  "evr_1280-10739-20100207", "evr_1280-10741-20100221", "evr_1280-10743-20100307", "evr_1280-11191-20100321",
  "evr_1280-12911-20090726", "evr_1280-12913-20090809", "evr_1280-12915-20090823", "evr_1280-12917-20090906",
  "evr_1280-12919-20090920", "evr_1280-12921-20091004", "evr_1280-12923-20091018", "evr_1280-12925-20091101",
  "evr_1280-14172-20091115", "evr_1280-14174-20091129", "evr_1280-22294-20101031", "evr_1280-22353-20100822",
  "evr_1280-22385-20101003", "evr_1280-22412-20110109", "evr_1280-22467-20101212", "evr_1280-22472-20100613",
  "evr_1280-22476-20110220", "evr_1280-22528-20110320", "evr_1280-22534-20100404", "evr_1280-22549-20110403",
  "evr_1280-22570-20100516", "evr_1280-22622-20100905", "evr_1280-22636-20101114", "evr_1280-22695-20100725",
  "evr_1280-22724-20110123", "evr_1280-22747-20100627", "evr_1280-22798-20100418", "evr_1280-22824-20101017",
  "evr_1280-22867-20100530", "evr_1280-22996-20100808", "evr_1280-23020-20101226", "evr_1280-23095-20110306",
  "evr_1280-23102-20100502", "evr_1280-23134-20110417", "evr_1280-23176-20101128", "evr_1280-23232-20100919",
  "evr_1280-23284-20100711", "evr_1280-23331-20110206", "evr_1280-39497-20110508", "evr_1280-39653-20110522",
  "evr_1280-39808-20110605", "evr_1280-39962-20110619", "evr_1280-40116-20110703", "evr_1280-40270-20110717",
  "evr_1280-40423-20110731", "evr_1280-40571-20110814", "evr_1280-40719-20110828", "evr_1280-40865-20110911",
  "evr_1280-41011-20110925", "evr_1280-41157-20111009", "evr_1280-41303-20111023", "evr_1280-41449-20111106",
  "evr_1280-41595-20111120", "evr_1280-41741-20111204", "evr_1280-41887-20111218", "evr_1280-42033-20120101",
  "evr_1280-42179-20120115", "evr_1280-42325-20120129", "evr_1280-42471-20120212", "evr_1280-42617-20120226",
  "evr_1280-42763-20120311", "evr_1280-42909-20120325", "evr_1280-43055-20120408", "evr_1280-43201-20120422",
  "evr_1280-43347-20120506", "evr_1280-43493-20120520", "evr_1280-43639-20120603", "evr_1280-43785-20120617",
  "evr_1280-43931-20120701", "evr_1280-44077-20120715", "evr_1280-44223-20120729", "evr_1280-44369-20120812",
  "evr_1280-44515-20120826", "evr_1280-44661-20120909", "evr_1280-44807-20120923", "evr_1280-44951-20121007",
  "evr_1280-45095-20121021", "evr_1280-45239-20121104", "evr_1280-45383-20121118", "evr_1280-45527-20121202",
  "evr_1280-45671-20121216", "evr_1280-45815-20121230", "evr_1280-45959-20130113", "evr_1280-46103-20130127",
  "evr_1280-46247-20130210", "evr_1280-46391-20130224", "evr_1280-46535-20130310", "evr_1280-46679-20130324",
  "evr_1280-46823-20130407", "evr_1280-46967-20130421", "evr_1280-47111-20130505", "evr_1280-47255-20130519",
  "evr_1280-47399-20130602", "evr_1280-47543-20130616", "evr_1280-47687-20130630", "evr_1280-47831-20130714",
  "evr_1280-47975-20130728", "evr_1280-48119-20130811", "evr_1280-48263-20130825", "evr_1280-48407-20130908",
  "evr_1280-48551-20130922", "evr_1280-48695-20131006", "evr_1280-48839-20131020", "evr_1280-48983-20131103",
  "evr_1280-49127-20131117", "evr_1280-49271-20131201", "evr_1280-49415-20131215", "evr_1280-49559-20131229",
  "evr_1280-49703-20140112", "evr_1280-49847-20140126", "evr_1280-50135-20140223", "evr_1280-50279-20140309",
  "evr_1280-50423-20140323", "evr_1280-50567-20140406", "evr_1280-50711-20140420", "evr_1280-50855-20140504",
  "evr_1280-50999-20140518"]

/-- The call `filepath.Join(dir, name)` for a clean directory and a file name. -/
def joinPath (dir name : String) : String := dir ++ "/" ++ name

/-- Loop of `filepath.Ext`, from the last character backwards: `acc` is the
part of the path already passed. -/
def extLoop : List Char → List Char → List Char
  | [], _ => []
  | c :: rest, acc =>
    if c = '/' then []
    else if c = '.' then c :: acc
    else extLoop rest (c :: acc)

/-- The function `filepath.Ext`: the suffix beginning at the final dot of the final element
of the path, empty if there is none. -/
def ext (path : String) : String := ⟨extLoop path.data.reverse []⟩

/-- The call `os.Remove(path)`; the file is gone when the call succeeds. -/
def osRemove (env : Env) (path : String) (w : World) : Bool × World :=
  if env.removeOk path then (true, (w.emit (.remove path)).del path)
  else (false, w.emit (.remove path))

/-- Body of the loop of `cleanupTempFiles` for one entry. -/
def cleanupEntry (env : Env) (cacheDir : String) (w : World) (entry : DirEntry) : World :=
  if !entry.isDir && ext entry.name == ".tmp" then
    match osRemove env (joinPath cacheDir entry.name) w with
    | (true, w1) => w1
    | (false, w1) => w1.emit .warn
  else w

def cleanupTempFiles (env : Env) (cacheDir : String) (w : World) : Except Err Unit × World :=
  match env.readDir cacheDir with
  | none => (.error .readDir, w)
  | some entries => (.ok (), entries.foldl (cleanupEntry env cacheDir) w)

/-- Candidate players with their arguments for a file. -/
def players (filePath : String) : List (String × List String) :=
  [("afplay", [filePath]),
   ("cvlc", ["-q", filePath]),
   ("vlc", ["-q", "--intf", "dummy", filePath]),
   ("mpg123", [filePath]),
   ("ffplay", ["-autoexit", filePath]),
   ("mplayer", [filePath]),
   ("omxplayer", [filePath])]

def findPlayer (env : Env) (filePath : String) : Option (String × List String) :=
  (players filePath).find? (fun p => env.lookPath p.1)

def copyFile (env : Env) (src dst : String) (w : World) : Bool × World :=
  if !env.copyOpenOk then (false, w)
  else
    match w.fs src with
    | none => (false, w)
    | some content =>
      if !env.copyCreateOk then (false, w.emit (.create dst))
      else
        match env.copyLimit with
        | none => (true, (w.emit (.create dst)).put dst content)
        | some k => (false, (w.emit (.create dst)).put dst (content.take k))

/-- The call `io.Copy(tempFile, progressReader)`: every read of the body adds
its length to `current` and invokes the progress callback, then the data is
written to the temporary file.  The result is whether the copy succeeded, the
content of the temporary file and the progress bar. -/
def ioCopy (limit : Option Nat) (total : Int) (readError : Bool) :
    List Bytes → Bytes → Int → Bar → Bool × Bytes × Bar
  | [], written, current, bar => (!readError, written, bar.invoke (current, total))
  | chunk :: rest, written, current, bar =>
    match limit with
    | none =>
      ioCopy limit total readError rest (written ++ chunk) (current + chunk.length)
        (bar.invoke (current + chunk.length, total))
    | some l =>
      if l < written.length + chunk.length then
        (false, written ++ chunk.take (l - written.length),
          bar.invoke (current + chunk.length, total))
      else
        ioCopy limit total readError rest (written ++ chunk) (current + chunk.length)
          (bar.invoke (current + chunk.length, total))

/-- Handling of the error of `cmd.Wait` in `downloadOrUseCached`. -/
def waitError : WaitResult → Except Err Unit
  | .exited code =>
    if code = 0 then .ok ()
    else if code = 130 then .ok ()
    else .error (.playerExit code)
  | .failed => .error .playerWait

/-- The part of `downloadOrUseCached` after the temporary file exists, which
runs under `defer os.Remove(tempPath)`. -/
def downloadAndPlay (env : Env) (resp : Response) (cachePath tempPath : String)
    (w : World) : Except Err Unit × World :=
  match findPlayer env tempPath with
  | none => (.error .noPlayer, w)
  | some (player, args) =>
    if !env.startOk player args then (.error .startPlayer, w)
    else
      let w1 := w.emit (.start player args)
      let r := ioCopy env.writeLimit resp.contentLength resp.readError resp.chunks [] 0
        createColorBlockProgress
      let w2 := (w1.put tempPath r.2.1).emitAll (r.2.2.drawn.map Event.draw)
      if !r.1 then (.error .saveToCache, w2.emit .kill)
      else if !env.closeOk then (.error .closeTemp, w2.emit .kill)
      else
        let w3 := match copyFile env tempPath cachePath w2 with
          | (true, w) => w
          | (false, w) => w.emit .warn
        (waitError (env.waitResult player args (w3.fs tempPath)), w3.emit .wait)

/-- The request URL `fmt.Sprintf("https://archive.org/download/%s/%s.mp3",
identifier, identifier[4:])`.  The slice drops four bytes; identifiers are
ASCII, where bytes and characters coincide. -/
def urlOf (identifier : String) : String :=
  "https://archive.org/download/" ++ identifier ++ "/" ++ identifier.drop 4 ++ ".mp3"

/-- The function `downloadOrUseCached`.  `len(identifier)` is the length in
bytes.  The connecting animation only writes to the terminal and is left out. -/
def downloadOrUseCached (env : Env) (identifier cachePath : String) (w : World) :
    Except Err Unit × World :=
  let w0 := w.emit (.stat cachePath)
  if (w.fs cachePath).isSome then (.ok (), w0)
  else if identifier.utf8ByteSize ≠ 23 then (.error .unexpectedId, w0)
  else if !env.newRequestOk then (.error .newRequest, w0)
  else
    let w1 := w0.emit (.httpGet (urlOf identifier) userAgent)
    match env.response with
    | none => (.error .download, w1)
    | some resp =>
      if resp.statusCode ≠ 200 then (.error (.status resp.statusCode), w1)
      else
        match env.createTemp with
        | none => (.error .createTemp, w1.emit .createTemp)
        | some tempPath =>
          let r := downloadAndPlay env resp cachePath tempPath ((w1.emit .createTemp).put tempPath [])
          (r.1, (osRemove env tempPath r.2).2)

/-- How a run of the program ends: `main` returns, or `log.Fatal` exits with
status 1. -/
inductive Outcome
  | success
  | fatal (e : Err)
  deriving DecidableEq

/-- Handling of the error of `cmd.Wait` in `main`. -/
def waitOutcome : WaitResult → Outcome
  | .exited code =>
    if code = 0 then .success
    else if code = 130 then .success
    else .fatal (.playerExit code)
  | .failed => .fatal .playerWait

/-- The canonical cache path of an identifier, as `main` computes it:
`<cacheDir>/<md5 of the identifier>.mp3`. -/
def cachePathOf (env : Env) (cacheDir identifier : String) : String :=
  joinPath cacheDir (env.md5hex identifier ++ ".mp3")

/-- The part of `main` after the identifier is chosen (lines 33 to 62). -/
def playIdentifier (env : Env) (cacheDir identifier : String) (w : World) : Outcome × World :=
  let cachePath := cachePathOf env cacheDir identifier
  match downloadOrUseCached env identifier cachePath w with
  | (.error e, w1) => (.fatal e, w1)
  | (.ok _, w1) =>
    match findPlayer env cachePath with
    | none => (.fatal .noPlayer, w1)
    | some (player, args) =>
      if !env.startOk player args then (.fatal .start, w1)
      else
        (waitOutcome (env.waitResult player args (w1.fs cachePath)),
          (w1.emit (.start player args)).emit .wait)

def main (env : Env) (w : World) : Outcome × World :=
  match env.userCacheDir with
  | none => (.fatal .userCacheDir, w)
  | some dir =>
    if !env.mkdirAllOk then (.fatal .mkdirAll, w)
    else
      let w1 := match cleanupTempFiles env (joinPath dir "minimalwave") w with
        | (.error _, w) => w.emit .warn
        | (.ok _, w) => w
      playIdentifier env (joinPath dir "minimalwave")
        (identifiers.getD (env.now % identifiers.length) "") w1

/-! ## The progress bar as the specification words it -/

/-- Filled count of the specification: `floor(current/total * 64)`, in exact
arithmetic. -/
def specBlocks (current total : Int) : Int :=
  ⌊(current : ℚ) / (total : ℚ) * 64⌋

/-- Largest filled count over the invocations that had `total > 0`, zero if
there were none. -/
def maxBlocks (calls : List (Int × Int)) : Int :=
  (((calls.filter (fun c => decide (0 < c.2))).map (fun c => specBlocks c.1 c.2)).max?).getD 0

/-- Byte counts on which the float64 arithmetic of the progress bar is exact:
`current` is not negative and either `current < 2^47` and `total < 2^53`, or
`current ≤ total < 2^48`. -/
abbrev ExactRange (current total : Int) : Prop :=
  0 ≤ current ∧ ((current < 2 ^ 47 ∧ total < 2 ^ 53) ∨ (current ≤ total ∧ total < 2 ^ 48))

/-- The blocks `0, 1, ..., n - 1`. -/
def firstBlocks (n : Int) : List Int :=
  (List.range n.toNat).map (fun (j : Nat) => (j : Int))

/-! ## Runs that reach the download -/

/-- The call `downloadOrUseCached env identifier cachePath w` misses the cache,
obtains response `resp` with status 200, creates the temporary file `tempPath`
and starts `player` with `args` on it. -/
structure StartsDownload (env : Env) (identifier cachePath : String) (w : World)
    (resp : Response) (tempPath player : String) (args : List String) : Prop where
  miss : w.fs cachePath = none
  idLength : identifier.utf8ByteSize = 23
  request : env.newRequestOk = true
  response : env.response = some resp
  status : resp.statusCode = 200
  temp : env.createTemp = some tempPath
  found : findPlayer env tempPath = some (player, args)
  started : env.startOk player args = true

/-- Result of streaming the body of `resp` into the temporary file. -/
def streamBody (env : Env) (resp : Response) : Bool × Bytes × Bar :=
  ioCopy env.writeLimit resp.contentLength resp.readError resp.chunks [] 0
    createColorBlockProgress

/-! ## Concrete environments -/

/-- A response of three bytes, delivered in two reads. -/
def demoResponse : Response :=
  { statusCode := 200, contentLength := 3, chunks := [[1, 2], [3]], readError := false }

/-- An environment in which everything succeeds: `mpg123` is installed and
exits with status 0.  The digests are those of `abc` and of the first
identifier of the registry. -/
def demoEnv : Env :=
  { userCacheDir := some "/home/u/.cache"
    mkdirAllOk := true
    readDir := fun _ => some []
    removeOk := fun _ => true
    now := 0
    md5hex := fun s =>
      if s = "abc" then "900150983cd24fb0d6963f7d28e17f72"
      else "2c404c94adf2bfdca510c7732410e503"
    newRequestOk := true
    response := some demoResponse
    createTemp := some "/home/u/.cache/minimalwave/minimalwave-42.mp3.tmp"
    lookPath := fun name => name == "mpg123"
    startOk := fun _ _ => true
    waitResult := fun _ _ _ => .exited 0
    writeLimit := none
    closeOk := true
    copyOpenOk := true
    copyCreateOk := true
    copyLimit := none }

/-- The cache directory of `demoEnv`. -/
def demoCacheDir : String := "/home/u/.cache/minimalwave"

/-- The temporary file of `demoEnv`. -/
def demoTempPath : String := "/home/u/.cache/minimalwave/minimalwave-42.mp3.tmp"

/-- The canonical cache path of the first identifier of the registry. -/
def demoCachePath : String :=
  "/home/u/.cache/minimalwave/2c404c94adf2bfdca510c7732410e503.mp3"

/-- The canonical cache path of the string `abc`. -/
def abcCachePath : String :=
  "/home/u/.cache/minimalwave/900150983cd24fb0d6963f7d28e17f72.mp3"

/-- The first identifier of the registry. -/
def demoIdentifier : String := "evr_1280-10731-20091213"

/-- A world without files in which nothing has happened yet. -/
def emptyWorld : World := { fs := fun _ => none, trace := [] }

/-- A world whose only file is the canonical cache file of the first identifier
of the registry. -/
def cachedWorld : World :=
  { fs := fun p => if p = demoCachePath then some [7, 8, 9] else none, trace := [] }

/-- A world whose only file is the canonical cache file of the string `abc`. -/
def abcCachedWorld : World :=
  { fs := fun p => if p = abcCachePath then some [7, 8, 9] else none, trace := [] }

/-- The finalize copy fails after its first byte. -/
def truncatedCopyEnv : Env := { demoEnv with copyLimit := some 1 }

/-- The temporary file accepts two bytes only. -/
def diskFullEnv : Env := { demoEnv with writeLimit := some 2 }

/-- As `demoEnv`, but the player exits with status 1 when the file it is given
does not exist, and with status 0 otherwise. -/
def strictPlayerEnv : Env :=
  { demoEnv with
    waitResult := fun _ _ file =>
      match file with
      | none => .exited 1
      | some _ => .exited 0 }

/-- As `strictPlayerEnv`, but the cache directory is read-only: `os.Create` in
the finalize copy fails. -/
def readOnlyCacheEnv : Env := { strictPlayerEnv with copyCreateOk := false }

/-- As `demoEnv`, but every player exits with status 130. -/
def interruptEnv : Env := { demoEnv with waitResult := fun _ _ _ => .exited 130 }

/-- As `demoEnv`, but the player given the temporary file exits with status 130
and a player given any other file exits with status 1. -/
def interruptThenFailEnv : Env :=
  { demoEnv with
    waitResult := fun _ args _ =>
      if args = [demoTempPath] then .exited 130 else .exited 1 }

/-- A cache directory listing `a.tmp`, `b.mp3` and `c.tmp`. -/
def purgeEnv : Env :=
  { demoEnv with
    readDir := fun _ =>
      some [⟨"a.tmp", false⟩, ⟨"b.mp3", false⟩, ⟨"c.tmp", false⟩] }

/-- The files `a.tmp`, `b.mp3` and `c.tmp` in the directory `cache`. -/
def purgeWorld : World :=
  { fs := fun p =>
      if p = "cache/a.tmp" then some [1]
      else if p = "cache/b.mp3" then some [2]
      else if p = "cache/c.tmp" then some [3]
      else none
    trace := [] }

/-- As `purgeEnv`, but `a.tmp` cannot be removed. -/
def stuckPurgeEnv : Env :=
  { purgeEnv with removeOk := fun p => p != "cache/a.tmp" }

/-- The environment `env` with another outcome of the finalize copy. -/
def Env.withFinalize (env : Env) (openOk createOk : Bool) (limit : Option Nat) : Env :=
  { env with copyOpenOk := openOk, copyCreateOk := createOk, copyLimit := limit }

/-! ## Theorems -/

theorem excessBits_lt (fuel : Nat) : ∀ n b : Nat, n / 2 ^ fuel < b →
    n / 2 ^ excessBits fuel n b < b := by
  induction fuel with
  | zero => intro n b h; simpa [excessBits] using h
  | succ k ih =>
    intro n b h
    unfold excessBits
    split_ifs with hlt
    · simpa using hlt
    · have h2 : n / 2 / 2 ^ k < b := by
        rw [Nat.div_div_eq_div_mul, ← pow_succ']; exact h
      have := ih (n / 2) b h2
      rw [Nat.div_div_eq_div_mul, ← pow_succ'] at this
      exact this

theorem excessBits_min (fuel : Nat) : ∀ n b j : Nat, j < excessBits fuel n b →
    b ≤ n / 2 ^ j := by
  induction fuel with
  | zero => intro n b j h; simp [excessBits] at h
  | succ k ih =>
    intro n b j h
    unfold excessBits at h
    split_ifs at h with hlt
    · omega
    · cases j with
      | zero => simpa using Nat.le_of_not_lt hlt
      | succ i =>
        have := ih (n / 2) b i (by omega)
        rw [Nat.div_div_eq_div_mul, ← pow_succ'] at this
        exact this

theorem roundHalfEven_mul_right (a b k : Nat) (hk : 0 < k) :
    roundHalfEven (a * k) (b * k) = roundHalfEven a b := by
  unfold roundHalfEven
  have hq : a * k / (b * k) = a / b := Nat.mul_div_mul_right a b hk
  have hr : a * k % (b * k) = a % b * k := by
    rw [Nat.mul_mod_mul_right]
  rw [hq, hr]
  have e1 : (2 * (a % b * k) < b * k) ↔ (2 * (a % b) < b) := by
    rw [← mul_assoc]; exact Nat.mul_lt_mul_right hk
  have e2 : (b * k < 2 * (a % b * k)) ↔ (b < 2 * (a % b)) := by
    rw [← mul_assoc]; exact Nat.mul_lt_mul_right hk
  simp only [e1, e2]

theorem roundHalfEven_cases (a t : Nat) :
    roundHalfEven a t = a / t ∨ (roundHalfEven a t = a / t + 1 ∧ t ≤ 2 * (a % t)) := by
  unfold roundHalfEven
  split_ifs <;> first | (left; rfl) | (right; exact ⟨rfl, by omega⟩)

/-- Rounding the scaled quotient and truncating gives the integer quotient
whenever twice the scale exceeds the divisor. -/
theorem roundHalfEven_div_pow (M u t : Nat) (ht : 0 < t) (hu : t < 2 ^ (u + 1)) :
    roundHalfEven (M * 2 ^ u) t / 2 ^ u = M / t := by
  have hP : 0 < 2 ^ u := Nat.pos_pow_of_pos u (by norm_num)
  have hq : M * 2 ^ u / t / 2 ^ u = M / t := by
    rw [Nat.div_div_eq_div_mul, Nat.mul_div_mul_right _ _ hP]
  rcases roundHalfEven_cases (M * 2 ^ u) t with h | ⟨h, hr⟩
  · rw [h, hq]
  · rw [h]
    have hu2 : t < 2 * 2 ^ u := by rw [pow_succ] at hu; omega
    have hA : t * (M * 2 ^ u / t) + M * 2 ^ u % t = M * 2 ^ u := Nat.div_add_mod (M * 2 ^ u) t
    have hM : t * (M / t) + M % t = M := Nat.div_add_mod M t
    have hρ : M % t < t := Nat.mod_lt _ ht
    have hlo : M / t * 2 ^ u ≤ M * 2 ^ u / t := by
      rw [← hq]; exact Nat.div_mul_le_self _ _
    have hhi : M * 2 ^ u / t < (M / t + 1) * 2 ^ u := by
      rw [← hq]; exact (Nat.div_lt_iff_lt_mul hP).1 (Nat.lt_succ_self _)
    generalize M * 2 ^ u / t = q at *
    generalize M * 2 ^ u % t = r at *
    generalize M / t = k at *
    generalize M % t = ρ at *
    generalize 2 ^ u = P at *
    apply Nat.div_eq_of_lt_le
    · omega
    · by_contra hcon
      have hq1 : q + 1 = (k + 1) * P := by omega
      have h1 : t * (q + 1) = t * ((k + 1) * P) := by rw [hq1]
      have h2 : (M + 1) * P ≤ (k + 1) * t * P := by
        apply Nat.mul_le_mul_right
        nlinarith
      nlinarith

theorem f64Quot_zero (d : Nat) : f64Quot 0 d = (0, 0) := by
  simp [f64Quot, excessBits, roundHalfEven]

theorem toFloat64_eq (x : Nat) (hx : x < 2 ^ 53) : toFloat64 x = x := by
  rcases Nat.eq_zero_or_pos x with h0 | hpos
  · subst h0; simp [toFloat64, f64Quot_zero]
  · unfold toFloat64 f64Quot
    simp only [one_mul]
    set N := x * 2 ^ 128 with hN
    set s := excessBits N N (2 ^ 53) with hs
    have hle : s ≤ 128 := by
      by_contra hcon
      have := excessBits_min N N (2 ^ 53) 128 (by omega)
      rw [hN, Nat.mul_div_cancel _ (by positivity)] at this
      omega
    obtain ⟨v, hv⟩ : ∃ v, 128 = v + s := ⟨128 - s, by omega⟩
    have hNs : N = x * 2 ^ v * 2 ^ s := by rw [hN, hv, pow_add, mul_assoc]
    have hP : 0 < 2 ^ s := by positivity
    have hr : roundHalfEven N (2 ^ s) = x * 2 ^ v := by
      unfold roundHalfEven
      rw [hNs, Nat.mul_mod_left, Nat.mul_div_cancel _ hP]
      simp [hP]
    rw [hr, hv, pow_add, mul_assoc, Nat.mul_div_cancel _ (by positivity)]

theorem roundHalfEven_exact (a t : Nat) (ht : 0 < t) (h : a % t = 0) :
    roundHalfEven a t = a / t := by
  unfold roundHalfEven
  simp [h, ht]

/-- On byte counts in the exact range the float64 computation of the progress
bar is the exact integer quotient. -/
theorem blocksNat_eq (c t : Nat) (ht0 : 0 < t)
    (h : (c < 2 ^ 47 ∧ t < 2 ^ 53) ∨ (c ≤ t ∧ t < 2 ^ 48)) :
    blocksNat c t = 64 * c / t := by
  have hc53 : c < 2 ^ 53 := by rcases h with h | h <;> omega
  have ht : t < 2 ^ 53 := by rcases h with h | h <;> omega
  unfold blocksNat
  rw [toFloat64_eq c hc53, toFloat64_eq t ht]
  rcases Nat.eq_zero_or_pos c with h0 | hpos
  · subst h0; simp [f64Quot_zero]
  · unfold f64Quot
    simp only
    set N := c * 2 ^ 128 with hN
    set s := excessBits N N (t * 2 ^ 53) with hs
    have hfuel : N / 2 ^ N < t * 2 ^ 53 := by
      rw [Nat.div_eq_of_lt (Nat.lt_two_pow N)]; positivity
    have hlt := excessBits_lt N N (t * 2 ^ 53) hfuel
    rw [← hs] at hlt
    have hN128 : 2 ^ 128 ≤ N := by rw [hN]; exact Nat.le_mul_of_pos_left _ hpos
    have hs1 : 1 ≤ s := by
      by_contra hcon
      have hs0 : s = 0 := by omega
      rw [hs0] at hlt
      simp at hlt
      omega
    have hmin := excessBits_min N N (t * 2 ^ 53) (s - 1) (by omega)
    have hmin2 : t * 2 ^ 53 * 2 ^ (s - 1) ≤ N :=
      (Nat.le_div_iff_mul_le (by positivity)).1 hmin
    have hs122 : s ≤ 122 := by
      by_contra hcon
      have h1 : 2 ^ 122 ≤ 2 ^ (s - 1) := Nat.pow_le_pow_right (by norm_num) (by omega)
      have h2 : t * 2 ^ 53 * 2 ^ 122 ≤ t * 2 ^ 53 * 2 ^ (s - 1) :=
        Nat.mul_le_mul_left _ h1
      rcases h with ⟨h47, _⟩ | ⟨hct, _⟩
      · have : N < 2 ^ 175 := by rw [hN]; omega
        have : 2 ^ 53 * 2 ^ 122 ≤ t * 2 ^ 53 * 2 ^ 122 :=
          Nat.mul_le_mul_right _ (Nat.le_mul_of_pos_left _ ht0)
        omega
      · have h3 : N ≤ t * 2 ^ 128 := by rw [hN]; exact Nat.mul_le_mul_right _ hct
        have h4 : t * 2 ^ 128 < t * 2 ^ 53 * 2 ^ 122 := by
          rw [mul_assoc]
          exact Nat.mul_lt_mul_of_pos_left (by norm_num) ht0
        omega
    obtain ⟨u, hu⟩ : ∃ u, 122 = u + s := ⟨122 - s, by omega⟩
    obtain ⟨s', hs'⟩ : ∃ s', s = s' + 1 := ⟨s - 1, by omega⟩
    have hNs : N = 64 * c * 2 ^ u * 2 ^ s := by
      rw [hN, mul_assoc (64 * c), ← pow_add, ← hu]; ring
    have hP : 0 < 2 ^ s := by positivity
    have h4 : t * 2 ^ 52 ≤ 64 * c * 2 ^ u := by
      have h3 : t * 2 ^ 52 * 2 ^ s ≤ 64 * c * 2 ^ u * 2 ^ s := by
        rw [← hNs]
        calc t * 2 ^ 52 * 2 ^ s = t * 2 ^ 53 * 2 ^ (s - 1) := by
              rw [hs']; simp only [Nat.add_sub_cancel]; ring
          _ ≤ N := hmin2
      exact Nat.le_of_mul_le_mul_right h3 hP
    have hm : roundHalfEven N (t * 2 ^ s) = roundHalfEven (64 * c * 2 ^ u) t := by
      rw [hNs]; exact roundHalfEven_mul_right _ _ _ hP
    rw [hm]
    have h122 : (2:Nat) ^ 122 = 2 ^ u * 2 ^ s := by rw [hu, pow_add]
    rw [h122, Nat.mul_div_mul_right _ _ hP]
    by_cases hct : c = t
    · subst hct
      have hdiv : 64 * c * 2 ^ u % c = 0 := by
        rw [mul_comm 64 c, mul_assoc]; exact Nat.mul_mod_right _ _
      rw [roundHalfEven_exact _ _ ht0 hdiv]
      have e1 : 64 * c * 2 ^ u / c = 64 * 2 ^ u := by
        rw [mul_comm 64 c, mul_assoc, Nat.mul_div_cancel_left _ ht0]
      have e2 : 64 * c / c = 64 := Nat.mul_div_cancel _ ht0
      rw [e1, e2, Nat.mul_div_cancel _ (by positivity)]
    · have htu : t < 2 ^ (u + 1) := by
        rcases h with ⟨h47, _⟩ | ⟨hle, h48⟩
        · have h5 : 64 * c * 2 ^ u < 2 ^ 53 * 2 ^ u :=
            Nat.mul_lt_mul_of_pos_right (by omega) (by positivity)
          have h6 : t * 2 ^ 52 < 2 ^ (u + 1) * 2 ^ 52 := by
            calc t * 2 ^ 52 < 2 ^ 53 * 2 ^ u := lt_of_le_of_lt h4 h5
              _ = 2 ^ (u + 1) * 2 ^ 52 := by ring
          exact Nat.lt_of_mul_lt_mul_right h6
        · have hlt2 : c < t := lt_of_le_of_ne hle hct
          have h5 : 64 * c * 2 ^ u < 64 * t * 2 ^ u :=
            Nat.mul_lt_mul_of_pos_right (by omega) (by positivity)
          have h6 : t * 2 ^ 52 < t * 2 ^ (u + 6) := by
            calc t * 2 ^ 52 < 64 * t * 2 ^ u := lt_of_le_of_lt h4 h5
              _ = t * 2 ^ (u + 6) := by ring
          have h7 : 2 ^ 52 < 2 ^ (u + 6) := Nat.lt_of_mul_lt_mul_left h6
          have h8 : 52 < u + 6 := (Nat.pow_lt_pow_iff_right (by norm_num)).1 h7
          have h9 : 2 ^ 48 ≤ 2 ^ (u + 1) := Nat.pow_le_pow_right (by norm_num) (by omega)
          omega
      exact roundHalfEven_div_pow (64 * c) u t ht0 htu

theorem specBlocks_eq (c t : Int) (ht : 0 < t) : specBlocks c t = 64 * c / t := by
  obtain ⟨m, rfl⟩ := Int.eq_ofNat_of_zero_le (le_of_lt ht)
  unfold specBlocks
  have h : (c : ℚ) / ((m : ℤ) : ℚ) * 64 = ((64 * c : ℤ) : ℚ) / (m : ℚ) := by
    push_cast; ring
  rw [h, Rat.floor_intCast_div_natCast]

theorem blocksOf_eq (c t : Int) (ht0 : 0 < t) (h : ExactRange c t) :
    blocksOf c t = 64 * c / t := by
  obtain ⟨hc0, hr⟩ := h
  obtain ⟨n, rfl⟩ := Int.eq_ofNat_of_zero_le hc0
  obtain ⟨m, rfl⟩ := Int.eq_ofNat_of_zero_le (le_of_lt ht0)
  have hm0 : 0 < m := by exact_mod_cast ht0
  have hr' : (n < 2 ^ 47 ∧ m < 2 ^ 53) ∨ (n ≤ m ∧ m < 2 ^ 48) := by
    rcases hr with ⟨h1, h2⟩ | ⟨h1, h2⟩
    · exact Or.inl ⟨by exact_mod_cast h1, by exact_mod_cast h2⟩
    · exact Or.inr ⟨by exact_mod_cast h1, by exact_mod_cast h2⟩
  have hn : n < 2 ^ 53 := by rcases hr' with h | h <;> omega
  unfold blocksOf
  simp only [Int.natAbs_ofNat]
  rw [blocksNat_eq n m hm0 hr']
  have hle : 64 * n / m ≤ 64 * n := Nat.div_le_self _ _
  have hneg : ¬ ((n : Int) < 0) := by omega
  have hbig : -(2 ^ 63) ≤ (((64 * n / m : Nat) : Int)) ∧
      (((64 * n / m : Nat) : Int)) < 2 ^ 63 := by
    have : 64 * n / m < 2 ^ 63 := by omega
    constructor
    · exact le_trans (by norm_num) (Int.ofNat_nonneg _)
    · exact_mod_cast this
  simp only [hneg, if_false, hbig, and_self, if_true]
  push_cast
  rfl

theorem specBlocks_nonneg (c t : Int) (hc : 0 ≤ c) (ht : 0 < t) : 0 ≤ specBlocks c t := by
  rw [specBlocks_eq c t ht]
  exact Int.ediv_nonneg (by omega) (le_of_lt ht)

/-- What one invocation of the callback does on byte counts in the exact
    range: the new `lastBlocks` and the blocks printed. -/
theorem progressCallback_eq (L c t : Int)
    (h : t ≤ 0 ∨ ExactRange c t) :
    progressCallback L c t =
      (if 0 < t then max L (specBlocks c t) else L,
       (List.range ((if 0 < t then max L (specBlocks c t) else L) - L).toNat).map
         (fun (j : Nat) => L + (j : Int))) := by
  unfold progressCallback
  by_cases ht : t ≤ 0
  · have hn : ¬ 0 < t := by omega
    simp [ht, hn]
  · have hp : 0 < t := by omega
    rcases h with h | h
    · omega
    · rw [blocksOf_eq c t hp h, ← specBlocks_eq c t hp]
      simp only [ht, if_false, hp, if_true]
      by_cases hv : specBlocks c t > L
      · have : max L (specBlocks c t) = specBlocks c t := max_eq_right (le_of_lt hv)
        simp [hv, this]
      · have : max L (specBlocks c t) = L := max_eq_left (by omega)
        simp [hv, this]

theorem firstBlocks_append (L L' : Int) (h0 : 0 ≤ L) (h : L ≤ L') :
    firstBlocks L ++ (List.range (L' - L).toNat).map (fun (j : Nat) => L + (j : Int)) =
      firstBlocks L' := by
  unfold firstBlocks
  have e : L'.toNat = L.toNat + (L' - L).toNat := by omega
  rw [e, List.range_add, List.map_append, List.map_map]
  congr 1
  apply List.map_congr_left
  intro j _
  simp only [Function.comp_apply]
  push_cast
  omega

theorem firstBlocks_length (n : Int) (h : 0 ≤ n) : ((firstBlocks n).length : Int) = n := by
  unfold firstBlocks
  simp
  omega

theorem max?_append_singleton (l : List Int) (v : Int) (hv : 0 ≤ v)
    (hl : 0 ≤ l.max?.getD 0) :
    (l ++ [v]).max?.getD 0 = max (l.max?.getD 0) v := by
  cases l with
  | nil => simp [List.max?, hv]
  | cons a as =>
    simp [List.max?, List.foldl_append]

theorem maxBlocks_append (calls : List (Int × Int)) (call : Int × Int)
    (hn : 0 ≤ maxBlocks calls) (hc : 0 < call.2 → 0 ≤ call.1) :
    maxBlocks (calls ++ [call]) =
      if 0 < call.2 then max (maxBlocks calls) (specBlocks call.1 call.2)
      else maxBlocks calls := by
  unfold maxBlocks at *
  rw [List.filter_append]
  by_cases ht : 0 < call.2
  · simp only [ht, if_true]
    have : List.filter (fun c : Int × Int => decide (0 < c.2)) [call] = [call] := by
      simp [List.filter, ht]
    rw [this, List.map_append, List.map_singleton]
    exact max?_append_singleton _ _ (specBlocks_nonneg _ _ (hc ht) ht) hn
  · have : List.filter (fun c : Int × Int => decide (0 < c.2)) [call] = [] := by
      simp [List.filter, ht]
    simp [this, ht]

/-- On byte counts in the exact range the bar always shows the blocks
    `0 .. maxBlocks - 1`. -/
theorem run_eq (calls : List (Int × Int))
    (h : ∀ c ∈ calls, c.2 ≤ 0 ∨ ExactRange c.1 c.2) :
    createColorBlockProgress.run calls = ⟨maxBlocks calls, firstBlocks (maxBlocks calls)⟩ ∧
      0 ≤ maxBlocks calls := by
  induction calls using List.reverseRecOn with
  | nil => simp [Bar.run, createColorBlockProgress, maxBlocks, firstBlocks]
  | append_singleton cs c ih =>
    have hcs : ∀ x ∈ cs, x.2 ≤ 0 ∨ ExactRange x.1 x.2 :=
      fun x hx => h x (List.mem_append_left _ hx)
    have hc := h c (List.mem_append_right _ (List.mem_singleton_self c))
    obtain ⟨ihr, ihn⟩ := ih hcs
    have hc' : 0 < c.2 → 0 ≤ c.1 := by
      intro hp; rcases hc with hc | hc
      · omega
      · exact hc.1
    have hmax := maxBlocks_append cs c ihn hc'
    have hle : maxBlocks cs ≤ maxBlocks (cs ++ [c]) := by
      rw [hmax]; split_ifs
      · exact le_max_left _ _
      · exact le_refl _
    refine ⟨?_, le_trans ihn hle⟩
    unfold Bar.run at ihr ⊢
    rw [List.foldl_append, ihr]
    simp only [List.foldl_cons, List.foldl_nil, Bar.invoke]
    rw [progressCallback_eq _ _ _ hc, ← hmax]
    simp only
    rw [firstBlocks_append _ _ ihn hle]

/-- C8, counterexample: one invocation with `current = 63 * 2^42 + 62` and
`total = 2^48 + 63` prints 63 blocks, although `floor(current/total * 64)` is
62: the float64 quotient rounds up to exactly `63/64`. -/
theorem progress_bar_rounding_counterexample :
    ((createColorBlockProgress.run [(63 * 2 ^ 42 + 62, 2 ^ 48 + 63)]).drawn.length : Int) = 63 ∧
      maxBlocks [(63 * 2 ^ 42 + 62, 2 ^ 48 + 63)] = 62 := by
  constructor
  · set_option maxRecDepth 100000 in decide
  · have h : maxBlocks [(63 * 2 ^ 42 + 62, 2 ^ 48 + 63)] =
        specBlocks (63 * 2 ^ 42 + 62) (2 ^ 48 + 63) := by
      simp [maxBlocks, List.filter, List.max?]
    rw [h, specBlocks_eq _ _ (by norm_num)]
    norm_num

/-- C8, amended: for every sequence of invocations whose byte counts satisfy
`0 ≤ current` and either `current < 2^47` and `total < 2^53` or
`current ≤ total < 2^48` (or whose `total ≤ 0`), the blocks drawn
after each invocation are exactly `0 .. m - 1`, where `m` is the largest
`floor(current/total * 64)` over the invocations so far that had `total > 0`
(zero if there were none); the last invocation appended exactly the blocks
from the previous maximum up to `m - 1`, and drew nothing when its filled
count did not exceed the previous maximum or its `total` was not positive. -/
theorem progress_bar_draws_maximum (calls : List (Int × Int)) (call : Int × Int)
    (h : ∀ c ∈ calls ++ [call], c.2 ≤ 0 ∨ ExactRange c.1 c.2) :
    ((createColorBlockProgress.run calls).drawn.length : Int) = maxBlocks calls ∧
    ((createColorBlockProgress.run (calls ++ [call])).drawn.length : Int) =
      maxBlocks (calls ++ [call]) ∧
    (createColorBlockProgress.run (calls ++ [call])).drawn =
      firstBlocks (maxBlocks (calls ++ [call])) ∧
    (createColorBlockProgress.run (calls ++ [call])).drawn =
      (createColorBlockProgress.run calls).drawn ++
        (List.range (maxBlocks (calls ++ [call]) - maxBlocks calls).toNat).map
          (fun (j : Nat) => maxBlocks calls + (j : Int)) ∧
    (specBlocks call.1 call.2 ≤ maxBlocks calls →
      (createColorBlockProgress.run (calls ++ [call])).drawn =
        (createColorBlockProgress.run calls).drawn) ∧
    (call.2 ≤ 0 →
      (createColorBlockProgress.run (calls ++ [call])).drawn =
        (createColorBlockProgress.run calls).drawn) := by
  have hcs : ∀ x ∈ calls, x.2 ≤ 0 ∨ ExactRange x.1 x.2 :=
    fun x hx => h x (List.mem_append_left _ hx)
  have hc := h call (List.mem_append_right _ (List.mem_singleton_self call))
  obtain ⟨e1, n1⟩ := run_eq calls hcs
  obtain ⟨e2, n2⟩ := run_eq (calls ++ [call]) h
  have hc' : 0 < call.2 → 0 ≤ call.1 := by
    intro hp; rcases hc with hc | hc
    · omega
    · exact hc.1
  have hmax := maxBlocks_append calls call n1 hc'
  have hle : maxBlocks calls ≤ maxBlocks (calls ++ [call]) := by
    rw [hmax]; split_ifs
    · exact le_max_left _ _
    · exact le_refl _
  rw [e1, e2]
  simp only
  refine ⟨firstBlocks_length _ n1, firstBlocks_length _ n2, trivial,
    (firstBlocks_append _ _ n1 hle).symm, ?_, ?_⟩
  · intro hs
    have : maxBlocks (calls ++ [call]) = maxBlocks calls := by
      rw [hmax]; split_ifs
      · exact max_eq_left hs
      · rfl
    rw [this]
  · intro ht
    have : maxBlocks (calls ++ [call]) = maxBlocks calls := by
      rw [hmax]; rw [if_neg (by omega)]
    rw [this]

/-- Witness of `progress_bar_draws_maximum`: `(10, 100)` followed by
`(50, 100)`. -/
theorem progress_bar_draws_maximum_witness :
    ((createColorBlockProgress.run ([(10, 100)] ++ [(50, 100)])).drawn.length : Int) =
      maxBlocks ([(10, 100)] ++ [(50, 100)]) :=
  (progress_bar_draws_maximum [(10, 100)] (50, 100) (by decide)).2.1

/-- C9, counterexample: after `(10, 100)` the invocation `(50, 100)` prints 26
blocks, not the 27 blocks 6 through 32; block 32 is never printed. -/
theorem progress_bar_block_32_not_drawn :
    (progressCallback 0 10 100).1 = 6 ∧
      (progressCallback 6 50 100).2.length = 26 ∧
      (32 : Int) ∉ (progressCallback 6 50 100).2 ∧
      (32 : Int) ∉ (createColorBlockProgress.run [(10, 100), (50, 100)]).drawn := by
  set_option maxRecDepth 100000 in decide

/-- C9, amended: on a fresh bar the invocation `(10, 100)` prints blocks 0
through 5 and the following invocation `(50, 100)` prints exactly blocks 6
through 31, in order, each once, so that 32 blocks are filled; none of the
blocks 0 through 5 is printed again. -/
theorem progress_bar_ten_then_fifty :
    (createColorBlockProgress.run [(10, 100)]) = ⟨6, [0, 1, 2, 3, 4, 5]⟩ ∧
      progressCallback 6 50 100 =
        (32, [6, 7, 8, 9, 10, 11, 12, 13, 14, 15, 16, 17, 18, 19, 20, 21, 22, 23, 24, 25, 26,
          27, 28, 29, 30, 31]) ∧
      (createColorBlockProgress.run [(10, 100), (50, 100)]) =
        ⟨32, [0, 1, 2, 3, 4, 5] ++ [6, 7, 8, 9, 10, 11, 12, 13, 14, 15, 16, 17, 18, 19, 20, 21,
          22, 23, 24, 25, 26, 27, 28, 29, 30, 31]⟩ := by
  set_option maxRecDepth 100000 in decide

theorem removals_append (a b : List Event) : removals (a ++ b) = removals a ++ removals b := by
  induction a with
  | nil => rfl
  | cons e t ih => cases e <;> simp [removals, ih]

theorem starts_append (a b : List Event) : starts (a ++ b) = starts a ++ starts b := by
  induction a with
  | nil => rfl
  | cons e t ih => cases e <;> simp [starts, ih]

theorem count_kill_draw (l : List Int) : (l.map Event.draw).count Event.kill = 0 := by
  induction l with
  | nil => rfl
  | cons x t ih => simp [List.count_cons, ih]

theorem starts_draw (l : List Int) : starts (l.map Event.draw) = [] := by
  induction l with
  | nil => rfl
  | cons x t ih => simp [starts, ih]

/-- A run that reaches the download is the deferred removal of the temporary
file after `downloadAndPlay`. -/
theorem downloadOrUseCached_of_startsDownload {env : Env} {identifier cachePath : String}
    {w : World} {resp : Response} {tempPath player : String} {args : List String}
    (h : StartsDownload env identifier cachePath w resp tempPath player args) :
    downloadOrUseCached env identifier cachePath w =
      ((downloadAndPlay env resp cachePath tempPath
          ((((w.emit (.stat cachePath)).emit (.httpGet (urlOf identifier) userAgent)).emit
            .createTemp).put tempPath [])).1,
        (osRemove env tempPath (downloadAndPlay env resp cachePath tempPath
          ((((w.emit (.stat cachePath)).emit (.httpGet (urlOf identifier) userAgent)).emit
            .createTemp).put tempPath [])).2).2) := by
  unfold downloadOrUseCached
  simp [h.miss, h.idLength, h.request, h.response, h.status, h.temp]

/-- When streaming fails the player is killed and nothing else happens
before the deferred removal. -/
theorem downloadAndPlay_stream_failure {env : Env} {resp : Response}
    {cachePath tempPath player : String} {args : List String} (w : World)
    (hfound : findPlayer env tempPath = some (player, args))
    (hstart : env.startOk player args = true)
    (hfail : (streamBody env resp).1 = false) :
    downloadAndPlay env resp cachePath tempPath w =
      (.error .saveToCache,
        ((((w.emit (.start player args)).put tempPath (streamBody env resp).2.1).emitAll
          ((streamBody env resp).2.2.drawn.map Event.draw)).emit .kill)) := by
  unfold downloadAndPlay
  simp only [hfound, hstart]
  unfold streamBody at hfail
  simp [hfail, streamBody]

/-- When the download completes, the result of `downloadOrUseCached` is the
handling of the player's exit; besides the steps of the download only the
finalize copy acts, by creating the cache file or logging a warning. -/
theorem downloadOrUseCached_download_complete {env : Env} {identifier cachePath : String}
    {w : World} {resp : Response} {tempPath player : String} {args : List String}
    (h : StartsDownload env identifier cachePath w resp tempPath player args)
    (hs : (streamBody env resp).1 = true) (hc : env.closeOk = true)
    (hne : tempPath ≠ cachePath) :
    ∃ es : List Event, (∀ e ∈ es, e = .create cachePath ∨ e = .warn) ∧
      (downloadOrUseCached env identifier cachePath w).1 =
        waitError (env.waitResult player args (some (streamBody env resp).2.1)) ∧
      (downloadOrUseCached env identifier cachePath w).2.trace =
        w.trace ++ [.stat cachePath, .httpGet (urlOf identifier) userAgent, .createTemp,
            .start player args] ++
          (streamBody env resp).2.2.drawn.map Event.draw ++ es ++ [.wait, .remove tempPath] ∧
      ∀ q, q ≠ tempPath → q ≠ cachePath →
        (downloadOrUseCached env identifier cachePath w).2.fs q = w.fs q := by
  rw [downloadOrUseCached_of_startsDownload h]
  unfold downloadAndPlay
  simp only [h.found, h.started]
  have hs' : (ioCopy env.writeLimit resp.contentLength resp.readError resp.chunks [] 0
      createColorBlockProgress).1 = true := hs
  unfold streamBody
  simp only [hs', hc, Bool.not_true, Bool.false_eq_true, if_false]
  unfold copyFile
  have hne' : cachePath ≠ tempPath := fun e => hne e.symm
  cases hopen : env.copyOpenOk <;> cases hcreate : env.copyCreateOk <;>
    cases hlimit : env.copyLimit <;> cases hr : env.removeOk tempPath
  all_goals first
    | (refine ⟨[.warn], by simp, ?_, ?_, ?_⟩ <;>
        simp [osRemove, hr, World.emit, World.emitAll, World.put, World.del, hne, hne']
       intro q h1 h2; simp [h1, h2])
    | (refine ⟨[.create cachePath, .warn], by simp, ?_, ?_, ?_⟩ <;>
        simp [osRemove, hr, World.emit, World.emitAll, World.put, World.del, hne, hne']
       intro q h1 h2; simp [h1, h2])
    | (refine ⟨[.create cachePath], by simp, ?_, ?_, ?_⟩ <;>
        simp [osRemove, hr, World.emit, World.emitAll, World.put, World.del, hne, hne']
       intro q h1 h2; simp [h1, h2])

/-- Every player found is bound to the file it was searched for, and the
search finds the same player for any other file. -/
theorem findPlayer_bound (env : Env) (path player : String) (args : List String)
    (h : findPlayer env path = some (player, args)) :
    args.getLast? = some path ∧
      ∀ path', ∃ args', findPlayer env path' = some (player, args') ∧
        args'.getLast? = some path' := by
  unfold findPlayer players at *
  simp only [List.find?] at *
  cases h1 : env.lookPath "afplay" <;> cases h2 : env.lookPath "cvlc" <;>
    cases h3 : env.lookPath "vlc" <;> cases h4 : env.lookPath "mpg123" <;>
    cases h5 : env.lookPath "ffplay" <;> cases h6 : env.lookPath "mplayer" <;>
    cases h7 : env.lookPath "omxplayer" <;>
    simp [h1, h2, h3, h4, h5, h6, h7] at h ⊢ <;>
    (obtain ⟨rfl, rfl⟩ := h; simp)

/-- An error of `downloadOrUseCached` is fatal for the run. -/
theorem playIdentifier_of_error (env : Env) (cacheDir identifier : String) (w : World)
    (e : Err)
    (h : (downloadOrUseCached env identifier (cachePathOf env cacheDir identifier) w).1 =
      .error e) :
    playIdentifier env cacheDir identifier w =
      (.fatal e, (downloadOrUseCached env identifier (cachePathOf env cacheDir identifier) w).2) := by
  unfold playIdentifier
  dsimp only
  rcases hd : downloadOrUseCached env identifier (cachePathOf env cacheDir identifier) w with
    ⟨r, w1⟩
  rw [hd] at h
  simp only at h
  subst h
  rfl

/-- After a successful `downloadOrUseCached`, `main` starts a player on the
canonical cache path and awaits it. -/
theorem playIdentifier_of_ok (env : Env) (cacheDir identifier : String) (w : World)
    (player : String) (args : List String)
    (h : (downloadOrUseCached env identifier (cachePathOf env cacheDir identifier) w).1 =
      .ok ())
    (hfound : findPlayer env (cachePathOf env cacheDir identifier) = some (player, args))
    (hstart : env.startOk player args = true) :
    playIdentifier env cacheDir identifier w =
      (waitOutcome (env.waitResult player args
          ((downloadOrUseCached env identifier (cachePathOf env cacheDir identifier) w).2.fs
            (cachePathOf env cacheDir identifier))),
        (((downloadOrUseCached env identifier (cachePathOf env cacheDir identifier) w).2.emit
          (.start player args)).emit .wait)) := by
  unfold playIdentifier
  dsimp only
  rcases hd : downloadOrUseCached env identifier (cachePathOf env cacheDir identifier) w with
    ⟨r, w1⟩
  rw [hd] at h
  simp only at h
  subst h
  simp [hfound, hstart]

theorem waitError_exited (code : Int) :
    waitError (.exited code) =
      if code = 0 ∨ code = 130 then .ok () else .error (.playerExit code) := by
  unfold waitError
  by_cases h0 : code = 0
  · simp [h0]
  · by_cases h1 : code = 130
    · simp [h1]
    · simp [h0, h1]

theorem waitOutcome_exited (code : Int) :
    waitOutcome (.exited code) =
      if code = 0 ∨ code = 130 then .success else .fatal (.playerExit code) := by
  unfold waitOutcome
  by_cases h0 : code = 0
  · simp [h0]
  · by_cases h1 : code = 130
    · simp [h1]
    · simp [h0, h1]

theorem downloadOrUseCached_hit (env : Env) (identifier cachePath : String) (w : World)
    (h : (w.fs cachePath).isSome = true) :
    downloadOrUseCached env identifier cachePath w = (.ok (), w.emit (.stat cachePath)) := by
  unfold downloadOrUseCached
  simp [h]

/-- Two environments that agree on the players give the same outcome of the
run when `downloadOrUseCached` has the same result in both and the exit status
of a player does not depend on the content of its file. -/
theorem playIdentifier_outcome_congr (env env2 : Env) (cacheDir identifier : String)
    (w : World) (hmd5 : env2.md5hex = env.md5hex) (hlook : env2.lookPath = env.lookPath)
    (hstart : env2.startOk = env.startOk) (hwait : env2.waitResult = env.waitResult)
    (hres : (downloadOrUseCached env2 identifier (cachePathOf env cacheDir identifier) w).1 =
      (downloadOrUseCached env identifier (cachePathOf env cacheDir identifier) w).1)
    (hindep : ∀ pl ar f g, env.waitResult pl ar f = env.waitResult pl ar g) :
    (playIdentifier env2 cacheDir identifier w).1 =
      (playIdentifier env cacheDir identifier w).1 := by
  have hcp : cachePathOf env2 cacheDir identifier = cachePathOf env cacheDir identifier := by
    unfold cachePathOf; rw [hmd5]
  have hfind : ∀ p, findPlayer env2 p = findPlayer env p := by
    intro p; unfold findPlayer; rw [hlook]
  unfold playIdentifier
  dsimp only
  rw [hcp]
  rcases hd2 : downloadOrUseCached env2 identifier (cachePathOf env cacheDir identifier) w
    with ⟨r2, w2⟩
  rcases hd : downloadOrUseCached env identifier (cachePathOf env cacheDir identifier) w
    with ⟨r, w1⟩
  rw [hd2, hd] at hres
  simp only at hres
  subst hres
  cases r2 with
  | error e => rfl
  | ok u =>
    simp only [hfind, hstart, hwait]
    cases findPlayer env (cachePathOf env cacheDir identifier) with
    | none => rfl
    | some pa =>
      obtain ⟨p, a⟩ := pa
      simp only
      cases env.startOk p a
      · rfl
      · simp only [Bool.not_true, Bool.false_eq_true, if_false]
        rw [hindep p a (w2.fs (cachePathOf env cacheDir identifier))
          (w1.fs (cachePathOf env cacheDir identifier))]

theorem extLoop_length (r : List Char) : ∀ acc : List Char,
    extLoop r acc = [] ∨ acc.length + 1 ≤ (extLoop r acc).length := by
  induction r with
  | nil => intro acc; left; rfl
  | cons c rest ih =>
    intro acc
    unfold extLoop
    split_ifs with h1 h2
    · left; rfl
    · right; simp
    · rcases ih (c :: acc) with h | h
      · left; exact h
      · right; simp only [List.length_cons] at h; omega

/-- The extension is `.tmp` exactly for the names that end in `.tmp`. -/
theorem ext_eq_tmp_iff (name : String) :
    ext name = ".tmp" ↔ ∃ stem : List Char, name.data = stem ++ ['.', 't', 'm', 'p'] := by
  have key : ∀ r : List Char, extLoop r [] = ['.', 't', 'm', 'p'] ↔
      ∃ rest, r = 'p' :: 'm' :: 't' :: '.' :: rest := by
    intro r
    constructor
    · intro h
      match r, h with
      | [], h => simp [extLoop] at h
      | [c1], h =>
        unfold extLoop at h
        split_ifs at h <;> simp [extLoop] at h
      | [c1, c2], h =>
        unfold extLoop at h
        split_ifs at h <;> try simp at h
        unfold extLoop at h
        split_ifs at h <;> simp [extLoop] at h
      | [c1, c2, c3], h =>
        unfold extLoop at h
        split_ifs at h <;> try simp at h
        unfold extLoop at h
        split_ifs at h <;> try simp at h
        unfold extLoop at h
        split_ifs at h <;> simp [extLoop] at h
      | c1 :: c2 :: c3 :: c4 :: rest, h =>
        unfold extLoop at h
        split_ifs at h <;> try simp at h
        unfold extLoop at h
        split_ifs at h <;> try simp at h
        unfold extLoop at h
        split_ifs at h <;> try simp at h
        unfold extLoop at h
        split_ifs at h with q1 q2
        · simp at h
          obtain ⟨h4, h3, h2, h1⟩ := h
          exact ⟨rest, by rw [h1, h2, h3, h4]⟩
        · rcases extLoop_length rest [c4, c3, c2, c1] with e | e
          · rw [e] at h; simp at h
          · rw [h] at e; simp at e
    · rintro ⟨rest, rfl⟩
      simp [extLoop]
  unfold ext
  have hs : (".tmp" : String) = ⟨['.', 't', 'm', 'p']⟩ := rfl
  rw [hs, String.ext_iff]
  simp only
  rw [key]
  constructor
  · rintro ⟨rest, h⟩
    refine ⟨rest.reverse, ?_⟩
    have := congrArg List.reverse h
    simpa using this
  · rintro ⟨stem, h⟩
    exact ⟨stem.reverse, by rw [h]; simp⟩

/-- The entries `cleanupTempFiles` hands to `os.Remove`. -/
theorem cleanup_foldl (env : Env) (cacheDir : String) (entries : List DirEntry) :
    ∀ w : World,
      removals (entries.foldl (cleanupEntry env cacheDir) w).trace =
        removals w.trace ++
          (entries.filter (fun e => !e.isDir && ext e.name == ".tmp")).map
            (fun e => joinPath cacheDir e.name) ∧
      ∀ p, (entries.foldl (cleanupEntry env cacheDir) w).fs p =
        if p ∈ (entries.filter (fun e => !e.isDir && ext e.name == ".tmp")).map
            (fun e => joinPath cacheDir e.name) ∧ env.removeOk p = true
        then none else w.fs p := by
  induction entries with
  | nil => intro w; simp
  | cons e es ih =>
    intro w
    rw [List.foldl_cons]
    obtain ⟨ih1, ih2⟩ := ih (cleanupEntry env cacheDir w e)
    by_cases hsel : (!e.isDir && ext e.name == ".tmp") = true
    · by_cases hok : env.removeOk (joinPath cacheDir e.name) = true
      · have hw : cleanupEntry env cacheDir w e =
            (w.emit (.remove (joinPath cacheDir e.name))).del (joinPath cacheDir e.name) := by
          simp [cleanupEntry, hsel, osRemove, hok]
        constructor
        · rw [ih1, hw]
          simp [List.filter_cons, hsel, World.emit, World.del, removals_append, removals]
        · intro p
          rw [ih2 p, hw]
          simp only [List.filter_cons, hsel, if_true, List.map_cons, List.mem_cons,
            World.emit, World.del]
          by_cases hp : p = joinPath cacheDir e.name
          · subst hp; simp [hok]
          · simp only [hp, false_or, if_false]
      · have hw : cleanupEntry env cacheDir w e =
            (w.emit (.remove (joinPath cacheDir e.name))).emit .warn := by
          simp [cleanupEntry, hsel, osRemove, hok]
        constructor
        · rw [ih1, hw]
          simp [List.filter_cons, hsel, World.emit, removals_append, removals]
        · intro p
          rw [ih2 p, hw]
          simp only [List.filter_cons, hsel, if_true, List.map_cons, List.mem_cons,
            World.emit]
          by_cases hp : p = joinPath cacheDir e.name
          · subst hp; simp [hok]
          · simp only [hp, false_or, if_false]
    · have hw : cleanupEntry env cacheDir w e = w := by
        simp only [cleanupEntry, hsel]; rfl
      constructor
      · rw [ih1, hw]
        simp [List.filter_cons, hsel]
      · intro p
        rw [ih2 p, hw, List.filter_cons, if_neg hsel]

/-- C10: when the cache directory can be listed, `cleanupTempFiles` returns no
error, hands to `os.Remove` exactly the entries that are not directories and
whose extension is `.tmp`, in the order of the listing and whether or not an
earlier removal failed, and afterwards every file is as before except those of
these entries whose removal succeeded, which are gone. -/
theorem cleanupTempFiles_removes_tmp_entries (env : Env) (cacheDir : String) (w : World)
    (entries : List DirEntry) (h : env.readDir cacheDir = some entries) :
    (cleanupTempFiles env cacheDir w).1 = .ok () ∧
      removals (cleanupTempFiles env cacheDir w).2.trace =
        removals w.trace ++
          (entries.filter (fun e => !e.isDir && ext e.name == ".tmp")).map
            (fun e => joinPath cacheDir e.name) ∧
      ∀ p, (cleanupTempFiles env cacheDir w).2.fs p =
        if p ∈ (entries.filter (fun e => !e.isDir && ext e.name == ".tmp")).map
            (fun e => joinPath cacheDir e.name) ∧ env.removeOk p = true
        then none else w.fs p := by
  unfold cleanupTempFiles
  rw [h]
  exact ⟨rfl, cleanup_foldl env cacheDir entries w⟩

/-- Witness of `cleanupTempFiles_removes_tmp_entries`: in a directory holding
`a.tmp`, `b.mp3` and `c.tmp` exactly `a.tmp` and `c.tmp` are removed and
`b.mp3` is left; when `a.tmp` cannot be removed, `c.tmp` is removed all the
same and no error is returned. -/
theorem cleanupTempFiles_removes_tmp_entries_witness :
    ((cleanupTempFiles purgeEnv "cache" purgeWorld).1 = .ok () ∧
      removals (cleanupTempFiles purgeEnv "cache" purgeWorld).2.trace =
        ["cache/a.tmp", "cache/c.tmp"] ∧
      (cleanupTempFiles purgeEnv "cache" purgeWorld).2.fs "cache/a.tmp" = none ∧
      (cleanupTempFiles purgeEnv "cache" purgeWorld).2.fs "cache/b.mp3" = some [2] ∧
      (cleanupTempFiles purgeEnv "cache" purgeWorld).2.fs "cache/c.tmp" = none) ∧
    ((cleanupTempFiles stuckPurgeEnv "cache" purgeWorld).1 = .ok () ∧
      removals (cleanupTempFiles stuckPurgeEnv "cache" purgeWorld).2.trace =
        ["cache/a.tmp", "cache/c.tmp"] ∧
      (cleanupTempFiles stuckPurgeEnv "cache" purgeWorld).2.fs "cache/a.tmp" = some [1] ∧
      (cleanupTempFiles stuckPurgeEnv "cache" purgeWorld).2.fs "cache/b.mp3" = some [2] ∧
      (cleanupTempFiles stuckPurgeEnv "cache" purgeWorld).2.fs "cache/c.tmp" = none) := by
  have h := cleanupTempFiles_removes_tmp_entries purgeEnv "cache" purgeWorld
    [⟨"a.tmp", false⟩, ⟨"b.mp3", false⟩, ⟨"c.tmp", false⟩] rfl
  have k := cleanupTempFiles_removes_tmp_entries stuckPurgeEnv "cache" purgeWorld
    [⟨"a.tmp", false⟩, ⟨"b.mp3", false⟩, ⟨"c.tmp", false⟩] rfl
  refine ⟨⟨h.1, h.2.1.trans (by decide), ?_, ?_, ?_⟩, ⟨k.1, k.2.1.trans (by decide), ?_, ?_, ?_⟩⟩
  · rw [h.2.2]; decide
  · rw [h.2.2]; decide
  · rw [h.2.2]; decide
  · rw [k.2.2]; decide
  · rw [k.2.2]; decide
  · rw [k.2.2]; decide

/-- For every `N`, a body of more than `N` bytes written to a temporary file
that accepts `N` bytes fails after exactly `N` bytes. -/
theorem streamBody_write_limit (env : Env) (resp : Response) (data : Bytes) (N : Nat)
    (hN : N < data.length) (hl : env.writeLimit = some N) (hc : resp.chunks = [data]) :
    (streamBody env resp).1 = false ∧ (streamBody env resp).2.1 = data.take N := by
  unfold streamBody
  rw [hl, hc]
  simp [ioCopy, hN]

/-- C2: whenever streaming the response body into the temporary file fails,
after however many bytes, `downloadOrUseCached` returns the error
`failed to save to cache`; its actions are the cache lookup, the request, the
creation of the temporary file, the start of the player, the progress blocks,
one kill of the player and, last, the removal of the temporary file, so the
player is killed exactly once and the canonical cache path is never created;
afterwards the temporary file is gone (unless `os.Remove` itself failed) and
every other file is as before. -/
theorem stream_failure_kills_player_once (env : Env) (identifier cachePath : String)
    (w : World) (resp : Response) (tempPath player : String) (args : List String)
    (h : StartsDownload env identifier cachePath w resp tempPath player args)
    (hfail : (streamBody env resp).1 = false) :
    (downloadOrUseCached env identifier cachePath w).1 = .error .saveToCache ∧
      (downloadOrUseCached env identifier cachePath w).2.trace =
        w.trace ++ [.stat cachePath, .httpGet (urlOf identifier) userAgent, .createTemp,
            .start player args] ++
          (streamBody env resp).2.2.drawn.map Event.draw ++ [.kill, .remove tempPath] ∧
      (downloadOrUseCached env identifier cachePath w).2.trace.count .kill =
        w.trace.count .kill + 1 ∧
      (downloadOrUseCached env identifier cachePath w).2.fs tempPath =
        (if env.removeOk tempPath = true then none else some (streamBody env resp).2.1) ∧
      ∀ q, q ≠ tempPath → (downloadOrUseCached env identifier cachePath w).2.fs q = w.fs q := by
  rw [downloadOrUseCached_of_startsDownload h,
    downloadAndPlay_stream_failure _ h.found h.started hfail]
  refine ⟨rfl, ?_, ?_, ?_, ?_⟩
  · cases hr : env.removeOk tempPath <;>
      simp [osRemove, hr, World.emit, World.emitAll, World.put, World.del]
  · cases hr : env.removeOk tempPath <;>
      simp [osRemove, hr, World.emit, World.emitAll, World.put, World.del, List.count_cons,
        count_kill_draw]
  · cases hr : env.removeOk tempPath <;>
      simp [osRemove, hr, World.emit, World.emitAll, World.put, World.del]
  · intro q hq
    cases hr : env.removeOk tempPath <;>
      simp [osRemove, hr, World.emit, World.emitAll, World.put, World.del, hq]

theorem demo_startsDownload (env : Env) (hreq : env.newRequestOk = true)
    (hresp : env.response = some demoResponse)
    (htemp : env.createTemp = some demoTempPath)
    (hlook : env.lookPath = fun name => name == "mpg123")
    (hstart : env.startOk "mpg123" [demoTempPath] = true) :
    StartsDownload env demoIdentifier demoCachePath emptyWorld demoResponse demoTempPath
      "mpg123" [demoTempPath] :=
  { miss := rfl
    idLength := by decide
    request := hreq
    response := hresp
    status := rfl
    temp := htemp
    found := by simp [findPlayer, players, hlook]
    started := hstart }

/-- Witness of `stream_failure_kills_player_once`: the temporary file accepts
two of the three bytes of the body. -/
theorem stream_failure_kills_player_once_witness :
    (downloadOrUseCached diskFullEnv demoIdentifier demoCachePath emptyWorld).1 =
        .error .saveToCache ∧
      (downloadOrUseCached diskFullEnv demoIdentifier demoCachePath emptyWorld).2.trace.count
        .kill = 1 ∧
      (downloadOrUseCached diskFullEnv demoIdentifier demoCachePath emptyWorld).2.fs
        demoTempPath = none ∧
      (downloadOrUseCached diskFullEnv demoIdentifier demoCachePath emptyWorld).2.fs
        demoCachePath = none := by
  have h := stream_failure_kills_player_once diskFullEnv demoIdentifier demoCachePath
    emptyWorld demoResponse demoTempPath "mpg123" [demoTempPath]
    (demo_startsDownload diskFullEnv rfl rfl rfl rfl rfl) (by decide)
  refine ⟨h.1, h.2.2.1, h.2.2.2.1, ?_⟩
  exact h.2.2.2.2 demoCachePath (by decide)

theorem count_kill_finalize (es : List Event) (cachePath : String)
    (h : ∀ e ∈ es, e = Event.create cachePath ∨ e = Event.warn) : es.count Event.kill = 0 := by
  apply List.count_eq_zero.2
  intro hk
  rcases h _ hk with h1 | h1 <;> cases h1

/-- The finalize step inside `downloadOrUseCached`: when the download completes,
the result of `downloadOrUseCached` is the
same for every outcome of the finalize copy (the file cannot be opened, the
cache file cannot be created, the copy breaks off, or it succeeds): it is
decided by the exit of the player alone; no outcome of the copy kills the
player; when the players start and exit with status 0 or 130 the run ends in
success whatever the copy did; and the outcome of the run is the same for
every outcome of the copy whenever the exit status of a player does not depend
on the content of the file it is given. -/
theorem finalize_failure_is_swallowed (env : Env) (cacheDir identifier : String) (w : World)
    (resp : Response) (tempPath player : String) (args : List String)
    (openOk createOk : Bool) (limit : Option Nat)
    (h : StartsDownload env identifier (cachePathOf env cacheDir identifier) w resp tempPath
      player args)
    (hs : (streamBody env resp).1 = true) (hc : env.closeOk = true)
    (hne : tempPath ≠ cachePathOf env cacheDir identifier) :
    (downloadOrUseCached (env.withFinalize openOk createOk limit) identifier
        (cachePathOf env cacheDir identifier) w).1 =
      (downloadOrUseCached env identifier (cachePathOf env cacheDir identifier) w).1 ∧
    (downloadOrUseCached (env.withFinalize openOk createOk limit) identifier
        (cachePathOf env cacheDir identifier) w).1 =
      waitError (env.waitResult player args (some (streamBody env resp).2.1)) ∧
    (downloadOrUseCached (env.withFinalize openOk createOk limit) identifier
        (cachePathOf env cacheDir identifier) w).2.trace.count .kill = w.trace.count .kill ∧
    ((∀ pl ar, env.startOk pl ar = true) →
      (∀ pl ar f, env.waitResult pl ar f = .exited 0 ∨ env.waitResult pl ar f = .exited 130) →
      (playIdentifier (env.withFinalize openOk createOk limit) cacheDir identifier w).1 =
          .success ∧
        (playIdentifier env cacheDir identifier w).1 = .success) ∧
    ((∀ pl ar f g, env.waitResult pl ar f = env.waitResult pl ar g) →
      (playIdentifier (env.withFinalize openOk createOk limit) cacheDir identifier w).1 =
        (playIdentifier env cacheDir identifier w).1) := by
  have h' : StartsDownload (env.withFinalize openOk createOk limit) identifier
      (cachePathOf env cacheDir identifier) w resp tempPath player args :=
    ⟨h.miss, h.idLength, h.request, h.response, h.status, h.temp, h.found, h.started⟩
  obtain ⟨es, hes, hr, ht, _⟩ := downloadOrUseCached_download_complete h hs hc hne
  obtain ⟨es', hes', hr', ht', _⟩ :=
    downloadOrUseCached_download_complete h' hs hc hne
  have hr2 : (downloadOrUseCached (env.withFinalize openOk createOk limit) identifier
      (cachePathOf env cacheDir identifier) w).1 =
      waitError (env.waitResult player args (some (streamBody env resp).2.1)) := hr'
  refine ⟨hr2.trans hr.symm, hr2, ?_, ?_, ?_⟩
  · rw [ht']
    simp [List.count_append, List.count_cons, count_kill_draw,
      count_kill_finalize es' _ hes']
  · intro hstart hexit
    obtain ⟨args2, hf2, _⟩ := (findPlayer_bound env tempPath player args h.found).2
      (cachePathOf env cacheDir identifier)
    have hw : waitError (env.waitResult player args (some (streamBody env resp).2.1)) =
        .ok () := by
      rcases hexit player args (some (streamBody env resp).2.1) with e | e <;>
        rw [e] <;> rfl
    have hout : ∀ f, waitOutcome (env.waitResult player args2 f) = .success := by
      intro f
      rcases hexit player args2 f with e | e <;> rw [e] <;> rfl
    constructor
    · have := playIdentifier_of_ok (env.withFinalize openOk createOk limit) cacheDir
        identifier w player args2 (hr2.trans hw) hf2 (hstart _ _)
      rw [this]
      exact hout _
    · have := playIdentifier_of_ok env cacheDir identifier w player args2
        (hr.trans hw) hf2 (hstart _ _)
      rw [this]
      exact hout _
  · intro hindep
    exact playIdentifier_outcome_congr env (env.withFinalize openOk createOk limit) cacheDir
      identifier w rfl rfl rfl rfl (hr2.trans hr.symm) hindep

/-- Witness of `finalize_failure_is_swallowed`: the cache directory is
read-only, so the cache file cannot be created. -/
theorem finalize_failure_is_swallowed_witness :
    (downloadOrUseCached (demoEnv.withFinalize true false none) demoIdentifier
        (cachePathOf demoEnv demoCacheDir demoIdentifier) emptyWorld).1 = .ok () ∧
      (downloadOrUseCached (demoEnv.withFinalize true false none) demoIdentifier
        (cachePathOf demoEnv demoCacheDir demoIdentifier) emptyWorld).2.trace.count .kill = 0 ∧
      (playIdentifier (demoEnv.withFinalize true false none) demoCacheDir demoIdentifier
        emptyWorld).1 = .success := by
  have h := finalize_failure_is_swallowed demoEnv demoCacheDir demoIdentifier emptyWorld
    demoResponse demoTempPath "mpg123" [demoTempPath] true false none
    (demo_startsDownload demoEnv rfl rfl rfl rfl rfl) (by decide) rfl (by decide)
  exact ⟨h.2.1, h.2.2.1, (h.2.2.2.1 (fun _ _ => rfl) (fun _ _ _ => Or.inl rfl)).1⟩

/-- C5: when the canonical cache file exists, `downloadOrUseCached` returns
success after looking the file up and doing nothing else: no request, no
temporary file, no player, no change to any file.  The run then starts the
player that is found on the canonical cache path, awaits it, and does nothing
else. -/
theorem cache_hit_skips_download (env : Env) (cacheDir identifier cachePath : String)
    (w : World) (h : (w.fs cachePath).isSome = true) :
    (downloadOrUseCached env identifier cachePath w).1 = .ok () ∧
      (downloadOrUseCached env identifier cachePath w).2.trace =
        w.trace ++ [.stat cachePath] ∧
      (downloadOrUseCached env identifier cachePath w).2.fs = w.fs ∧
      ∀ player args, cachePath = cachePathOf env cacheDir identifier →
        findPlayer env cachePath = some (player, args) → env.startOk player args = true →
        (playIdentifier env cacheDir identifier w).1 =
            waitOutcome (env.waitResult player args (w.fs cachePath)) ∧
          (playIdentifier env cacheDir identifier w).2.trace =
            w.trace ++ [.stat cachePath, .start player args, .wait] ∧
          (playIdentifier env cacheDir identifier w).2.fs = w.fs ∧
          args.getLast? = some cachePath := by
  have hd := downloadOrUseCached_hit env identifier cachePath w h
  refine ⟨by rw [hd], by rw [hd]; rfl, by rw [hd]; rfl, ?_⟩
  intro player args hcp hfound hstart
  subst hcp
  have hp := playIdentifier_of_ok env cacheDir identifier w player args (by rw [hd]) hfound
    hstart
  rw [hp, hd]
  refine ⟨rfl, ?_, rfl, (findPlayer_bound env _ player args hfound).1⟩
  simp [World.emit]

/-- Witness of `cache_hit_skips_download`: the cache file of `demoEnv`
exists. -/
theorem cache_hit_skips_download_witness :
    (downloadOrUseCached demoEnv demoIdentifier demoCachePath cachedWorld).1 = .ok () ∧
      (downloadOrUseCached demoEnv demoIdentifier demoCachePath cachedWorld).2.trace =
        [.stat demoCachePath] ∧
      (playIdentifier demoEnv demoCacheDir demoIdentifier cachedWorld).2.trace =
        [.stat demoCachePath, .start "mpg123" [demoCachePath], .wait] := by
  have h := cache_hit_skips_download demoEnv demoCacheDir demoIdentifier demoCachePath
    cachedWorld (by decide)
  exact ⟨h.1, h.2.1, (h.2.2.2 "mpg123" [demoCachePath] (by decide) (by decide) rfl).2.1⟩

/-- C6, counterexample: the identifier `abc` (three bytes) is accepted when its
canonical cache file exists, and the run plays that file; when the file does
not exist the cache path has been computed and looked up before the
identifier is rejected. -/
theorem short_identifier_accepted_on_cache_hit :
    "abc".utf8ByteSize ≠ 23 ∧
      cachePathOf demoEnv demoCacheDir "abc" = abcCachePath ∧
      (downloadOrUseCached demoEnv "abc" abcCachePath abcCachedWorld).1 = .ok () ∧
      (playIdentifier demoEnv demoCacheDir "abc" abcCachedWorld).1 = .success ∧
      starts (playIdentifier demoEnv demoCacheDir "abc" abcCachedWorld).2.trace =
        [("mpg123", [abcCachePath])] ∧
      (downloadOrUseCached demoEnv "abc" abcCachePath emptyWorld).2.trace =
        [.stat abcCachePath] :=
  ⟨by decide, by decide, rfl, by decide, by decide, by decide⟩

/-- C6, amended: for every identifier whose length is not 23, when the
canonical cache file does not exist, `downloadOrUseCached` returns the error
`unexpected id` having done nothing but look up the cache path: no request is
sent, no temporary file is created, no player is started and no file changes;
the run ends fatally with that error. -/
theorem bad_identifier_rejected_on_miss (env : Env) (cacheDir identifier cachePath : String)
    (w : World) (hlen : identifier.utf8ByteSize ≠ 23) (hmiss : w.fs cachePath = none) :
    (downloadOrUseCached env identifier cachePath w).1 = .error .unexpectedId ∧
      (downloadOrUseCached env identifier cachePath w).2.trace =
        w.trace ++ [.stat cachePath] ∧
      (downloadOrUseCached env identifier cachePath w).2.fs = w.fs ∧
      (cachePath = cachePathOf env cacheDir identifier →
        (playIdentifier env cacheDir identifier w).1 = .fatal .unexpectedId ∧
        (playIdentifier env cacheDir identifier w).2.trace = w.trace ++ [.stat cachePath] ∧
        (playIdentifier env cacheDir identifier w).2.fs = w.fs) := by
  have hd : downloadOrUseCached env identifier cachePath w =
      (.error .unexpectedId, w.emit (.stat cachePath)) := by
    unfold downloadOrUseCached
    simp [hmiss, hlen]
  refine ⟨by rw [hd], by rw [hd]; rfl, by rw [hd]; rfl, ?_⟩
  intro hcp
  subst hcp
  rw [playIdentifier_of_error env cacheDir identifier w .unexpectedId (by rw [hd]), hd]
  exact ⟨rfl, rfl, rfl⟩

/-- Witness of `bad_identifier_rejected_on_miss`: the identifier `abc` and no
files. -/
theorem bad_identifier_rejected_on_miss_witness :
    (downloadOrUseCached demoEnv "abc" abcCachePath emptyWorld).1 = .error .unexpectedId ∧
      (playIdentifier demoEnv demoCacheDir "abc" emptyWorld).1 = .fatal .unexpectedId := by
  have h := bad_identifier_rejected_on_miss demoEnv demoCacheDir "abc" abcCachePath
    emptyWorld (by decide) rfl
  exact ⟨h.1, (h.2.2.2 (by decide)).1⟩

/-- The handling of the exit status at the two waits: the exit status of the
awaited player decides at both waits by the same rule.  At the wait of `main` on a cache hit, status 0 and status 130 end
the run in success and every other status ends it fatally.  At the wait of
`downloadOrUseCached` on a cache miss, status 0 and status 130 make the call
succeed and every other status makes it return the error, which ends the run
fatally; after a successful call the outcome of the run is that of the wait of
`main`. -/
theorem player_exit_status_rule (env : Env) (cacheDir identifier : String)
    (wHit wMiss : World) (resp : Response) (tempPath player : String)
    (args cacheArgs : List String) (codeMain codeMiss : Int)
    (hhit : (wHit.fs (cachePathOf env cacheDir identifier)).isSome = true)
    (hfound : findPlayer env (cachePathOf env cacheDir identifier) = some (player, cacheArgs))
    (hstart : env.startOk player cacheArgs = true)
    (hexitMain : ∀ f, env.waitResult player cacheArgs f = .exited codeMain)
    (h : StartsDownload env identifier (cachePathOf env cacheDir identifier) wMiss resp
      tempPath player args)
    (hs : (streamBody env resp).1 = true) (hc : env.closeOk = true)
    (hne : tempPath ≠ cachePathOf env cacheDir identifier)
    (hexitMiss : ∀ f, env.waitResult player args f = .exited codeMiss) :
    (playIdentifier env cacheDir identifier wHit).1 =
        (if codeMain = 0 ∨ codeMain = 130 then .success
          else .fatal (.playerExit codeMain)) ∧
      (downloadOrUseCached env identifier (cachePathOf env cacheDir identifier) wMiss).1 =
        (if codeMiss = 0 ∨ codeMiss = 130 then .ok () else .error (.playerExit codeMiss)) ∧
      (playIdentifier env cacheDir identifier wMiss).1 =
        (if codeMiss = 0 ∨ codeMiss = 130 then
          (if codeMain = 0 ∨ codeMain = 130 then .success
            else .fatal (.playerExit codeMain))
          else .fatal (.playerExit codeMiss)) := by
  obtain ⟨es, _, hr, _, _⟩ := downloadOrUseCached_download_complete h hs hc hne
  rw [hexitMiss, waitError_exited] at hr
  refine ⟨?_, hr, ?_⟩
  · have hd := downloadOrUseCached_hit env identifier _ wHit hhit
    rw [playIdentifier_of_ok env cacheDir identifier wHit player cacheArgs (by rw [hd])
      hfound hstart]
    simp only [hexitMain, waitOutcome_exited]
  · by_cases hcode : codeMiss = 0 ∨ codeMiss = 130
    · rw [if_pos hcode] at hr ⊢
      rw [playIdentifier_of_ok env cacheDir identifier wMiss player cacheArgs hr hfound hstart]
      simp only [hexitMain, waitOutcome_exited]
    · rw [if_neg hcode] at hr ⊢
      rw [playIdentifier_of_error env cacheDir identifier wMiss _ hr]

/-- Witness of `player_exit_status_rule`: the player exits with status 130 at
every wait. -/
theorem player_exit_status_rule_witness :
    (playIdentifier { demoEnv with waitResult := fun _ _ _ => .exited 130 } demoCacheDir
        demoIdentifier cachedWorld).1 = .success ∧
      (downloadOrUseCached { demoEnv with waitResult := fun _ _ _ => .exited 130 }
        demoIdentifier demoCachePath emptyWorld).1 = .ok () := by
  have h := player_exit_status_rule { demoEnv with waitResult := fun _ _ _ => .exited 130 }
    demoCacheDir demoIdentifier cachedWorld emptyWorld demoResponse demoTempPath "mpg123"
    [demoTempPath] [demoCachePath] 130 130 (by decide) (by decide) rfl (fun _ => rfl)
    (demo_startsDownload _ rfl rfl rfl rfl rfl) (by decide) rfl (by decide) (fun _ => rfl)
  exact ⟨h.1, h.2.1⟩

/-- C1, the code at the failing input: the body `[1, 2, 3]` is downloaded
completely into the temporary file, then the finalize copy breaks off after
one byte.  `downloadOrUseCached` succeeds, the canonical cache path holds the
single byte `[1]`, the temporary file is removed, and the next call takes the
truncated file for a cache hit, doing nothing but the lookup. -/
theorem truncated_copy_reaches_cache_path :
    (streamBody truncatedCopyEnv demoResponse).1 = true ∧
      (streamBody truncatedCopyEnv demoResponse).2.1 = [1, 2, 3] ∧
      (downloadOrUseCached truncatedCopyEnv demoIdentifier demoCachePath emptyWorld).1 =
        .ok () ∧
      (downloadOrUseCached truncatedCopyEnv demoIdentifier demoCachePath emptyWorld).2.fs
        demoCachePath = some [1] ∧
      (downloadOrUseCached truncatedCopyEnv demoIdentifier demoCachePath emptyWorld).2.fs
        demoTempPath = none ∧
      (downloadOrUseCached demoEnv demoIdentifier demoCachePath
        { fs := (downloadOrUseCached truncatedCopyEnv demoIdentifier demoCachePath
            emptyWorld).2.fs,
          trace := [] }).1 = .ok () ∧
      (downloadOrUseCached demoEnv demoIdentifier demoCachePath
        { fs := (downloadOrUseCached truncatedCopyEnv demoIdentifier demoCachePath
            emptyWorld).2.fs,
          trace := [] }).2.trace = [.stat demoCachePath] :=
  ⟨by decide, by decide, rfl, by decide, by decide, rfl, by decide⟩

/-- C3, the code at the failing input: in `demoEnv` the cache is empty, the
download succeeds and every player exits with status 0.  The run succeeds and
has started two players, the first on the temporary file and, after that one
was awaited, a second on the canonical cache path; it has awaited twice. -/
theorem cache_miss_run_starts_player_twice :
    (emptyWorld.fs (cachePathOf demoEnv demoCacheDir demoIdentifier)).isSome = false ∧
      (main demoEnv emptyWorld).1 = .success ∧
      starts (main demoEnv emptyWorld).2.trace =
        [("mpg123", [demoTempPath]), ("mpg123", [demoCachePath])] ∧
      (main demoEnv emptyWorld).2.trace.count .wait = 2 ∧
      (main demoEnv emptyWorld).2.trace.getLast? = some .wait ∧
      (main demoEnv emptyWorld).2.fs demoCachePath = some [1, 2, 3] := by
  set_option maxRecDepth 100000 in decide

/-- C4, the code at the failing input: the cache is empty, the download
completes and the player exits with status 0 on the temporary file; it exits
with status 1 when given a file that does not exist.  When the finalize copy
succeeds the run ends in success.  When `os.Create` of the cache file fails,
`downloadOrUseCached` still returns success and kills nobody, but `main` then
starts a second player on the canonical cache path, which does not exist, and
the run ends fatally with that player's status 1. -/
theorem failed_finalize_turns_run_fatal :
    (streamBody readOnlyCacheEnv demoResponse).1 = true ∧
      (main strictPlayerEnv emptyWorld).1 = .success ∧
      (downloadOrUseCached readOnlyCacheEnv demoIdentifier demoCachePath emptyWorld).1 =
        .ok () ∧
      (downloadOrUseCached readOnlyCacheEnv demoIdentifier demoCachePath
        emptyWorld).2.trace.count .kill = 0 ∧
      (main readOnlyCacheEnv emptyWorld).1 = .fatal (.playerExit 1) ∧
      starts (main readOnlyCacheEnv emptyWorld).2.trace =
        [("mpg123", [demoTempPath]), ("mpg123", [demoCachePath])] ∧
      (main readOnlyCacheEnv emptyWorld).2.fs demoCachePath = none :=
  ⟨by decide, by set_option maxRecDepth 100000 in decide, rfl,
    by set_option maxRecDepth 100000 in decide, by set_option maxRecDepth 100000 in decide,
    by set_option maxRecDepth 100000 in decide, by set_option maxRecDepth 100000 in decide⟩

/-- C7, the code at the failing input: the cache is empty, the download
completes and the player awaited in `downloadOrUseCached` exits with status
130.  The call returns success, but the run is not over: `main` starts a
second player on the canonical cache path, and when that one exits with
status 1 the run ends fatally.  On a cache hit, status 130 at the wait of
`main` ends the run in success.  A player that a signal has killed reports
`ExitCode() == -1`, which both waits treat as a failure. -/
theorem interrupt_at_miss_wait_run_fatal :
    (downloadOrUseCached interruptThenFailEnv demoIdentifier demoCachePath emptyWorld).1 =
        .ok () ∧
      (main interruptThenFailEnv emptyWorld).1 = .fatal (.playerExit 1) ∧
      starts (main interruptThenFailEnv emptyWorld).2.trace =
        [("mpg123", [demoTempPath]), ("mpg123", [demoCachePath])] ∧
      (main interruptEnv cachedWorld).1 = .success ∧
      starts (main interruptEnv cachedWorld).2.trace = [("mpg123", [demoCachePath])] ∧
      waitOutcome (.exited (-1)) = .fatal (.playerExit (-1)) ∧
      waitError (.exited (-1)) = .error (.playerExit (-1)) :=
  ⟨rfl, by set_option maxRecDepth 100000 in decide,
    by set_option maxRecDepth 100000 in decide, by set_option maxRecDepth 100000 in decide,
    by set_option maxRecDepth 100000 in decide, by decide, rfl⟩

theorem starts_finalize (es : List Event) (cachePath : String)
    (h : ∀ e ∈ es, e = Event.create cachePath ∨ e = Event.warn) : starts es = [] := by
  induction es with
  | nil => rfl
  | cons e t ih =>
    have ht := ih (fun x hx => h x (List.mem_cons_of_mem _ hx))
    rcases h e (List.mem_cons_self _ _) with h1 | h1 <;> subst h1 <;> simpa [starts] using ht

/-- Every run that misses the cache, completes the download and whose players
start and exit with status 0 or 130 starts two players: one on the temporary
file and, after it was awaited, one on the canonical cache path. -/
theorem cache_miss_starts_two_players (env : Env) (cacheDir identifier : String) (w : World)
    (resp : Response) (tempPath player : String) (args : List String)
    (h : StartsDownload env identifier (cachePathOf env cacheDir identifier) w resp tempPath
      player args)
    (hs : (streamBody env resp).1 = true) (hc : env.closeOk = true)
    (hne : tempPath ≠ cachePathOf env cacheDir identifier)
    (hstart : ∀ pl ar, env.startOk pl ar = true)
    (hexit : ∀ pl ar f, env.waitResult pl ar f = .exited 0 ∨
      env.waitResult pl ar f = .exited 130) :
    ∃ cacheArgs, args.getLast? = some tempPath ∧
      cacheArgs.getLast? = some (cachePathOf env cacheDir identifier) ∧
      (playIdentifier env cacheDir identifier w).1 = .success ∧
      starts (playIdentifier env cacheDir identifier w).2.trace =
        starts w.trace ++ [(player, args), (player, cacheArgs)] := by
  obtain ⟨hb, hb2⟩ := findPlayer_bound env tempPath player args h.found
  obtain ⟨cacheArgs, hf2, hl2⟩ := hb2 (cachePathOf env cacheDir identifier)
  obtain ⟨es, hes, hr, ht, _⟩ := downloadOrUseCached_download_complete h hs hc hne
  have hw : waitError (env.waitResult player args (some (streamBody env resp).2.1)) =
      .ok () := by
    rcases hexit player args (some (streamBody env resp).2.1) with e | e <;> rw [e] <;> rfl
  have hout : ∀ f, waitOutcome (env.waitResult player cacheArgs f) = .success := by
    intro f
    rcases hexit player cacheArgs f with e | e <;> rw [e] <;> rfl
  refine ⟨cacheArgs, hb, hl2, ?_, ?_⟩
  · rw [playIdentifier_of_ok env cacheDir identifier w player cacheArgs (hr.trans hw) hf2
      (hstart _ _)]
    exact hout _
  · rw [playIdentifier_of_ok env cacheDir identifier w player cacheArgs (hr.trans hw) hf2
      (hstart _ _)]
    simp only [World.emit, ht]
    simp [starts_append, starts, starts_draw, starts_finalize es _ hes]

/-- Every identifier of the registry has the length `downloadOrUseCached`
expects. -/
theorem identifiers_length : ∀ identifier ∈ identifiers, identifier.utf8ByteSize = 23 := by
  set_option maxRecDepth 100000 in decide

end Minimalwave
